import Mathlib

/-!
Shallow embedding of the agent-fleet supervisor of this repository
(`agent_server_manager.py` and `agent_runner.py`).

The supervisor keeps a running fleet of worker ("agent") processes consistent
with a declarative configuration document, bootstraps a discovery registry
before the fleet starts, and spawns one periodic registration thread per
launched worker.  Process spawning and the network environment are modelled
by explicit oracles so that the control flow of the Python code can be
replayed as pure functions.
-/

namespace AgentsA2A

/-- One entry of `config.json`'s `agents` array, as consumed by
`AgentServerManager.start_agent` and `register_agent`: name, file, port,
description, version. -/
structure AgentInfo where
  name : String
  file : String
  port : Nat
  description : String
  version : String
deriving DecidableEq

/-- Association-list lookup, modelling a Python dict read (`d.get(k)` /
`k in d`).  Keys are worker names, values are opaque process handles. -/
def alookup (l : List (String × Nat)) (k : String) : Option Nat :=
  match l with
  | [] => none
  | (k', v) :: t => if k' = k then some v else alookup t k

/-- Association-list insertion/overwrite, modelling `d[k] = v` on a Python
dict (a fresh key is appended in insertion order). -/
def aset (l : List (String × Nat)) (k : String) (v : Nat) : List (String × Nat) :=
  match l with
  | [] => [(k, v)]
  | (k', v') :: t => if k' = k then (k, v) :: t else (k', v') :: aset t k v

/-- Association-list deletion, modelling `del d[k]` on a Python dict. -/
def aerase (l : List (String × Nat)) (k : String) : List (String × Nat) :=
  match l with
  | [] => []
  | (k', v') :: t => if k' = k then t else (k', v') :: aerase t k

/-- The mutable fleet bookkeeping of `AgentServerManager`:
`processes` (name to process handle), `running_agents` (set of names,
modelled as a duplicate-free list), `regThreads` (names having a live
periodic-registration thread, one entry per thread spawned by
`register_agent`), and the shared `stop_registration` event. -/
structure ManagerState where
  processes : List (String × Nat)
  running_agents : List String
  regThreads : List String
  stop_registration : Bool
deriving DecidableEq

/-- The manager state right after `__init__`: empty fleet, no registration
threads, `stop_registration` unset. -/
def initState : ManagerState := ⟨[], [], [], false⟩

/-- `register_agent`: spawns a daemon thread running `periodic_registration`
for this agent and records it in `registration_threads`.  The thread keeps
issuing registration calls every 30 time units until the shared
`stop_registration` event is set; storing a new thread under an existing
name does not stop the old thread, so `regThreads` keeps one entry per
spawned thread. -/
def register_agent (s : ManagerState) (info : AgentInfo) : ManagerState :=
  { s with regThreads := info.name :: s.regThreads }

/-- A periodic-registration loop for name `n` is still active (will issue
further registration calls on its 30-unit ticks): a thread for `n` was
spawned and the shared `stop_registration` event has not been set. -/
def regLoopActive (s : ManagerState) (n : String) : Bool :=
  !s.stop_registration && decide (n ∈ s.regThreads)

/-- Result of one `start_agent` call: the state after the call, the returned
handle (`None` on spawn failure), and whether a process spawn was attempted. -/
structure StartResult where
  state : ManagerState
  handle : Option Nat
  spawned : Bool
deriving DecidableEq

/-- `AgentServerManager.start_agent`: if the name is already in
`running_agents`, return the existing handle unchanged; otherwise attempt to
spawn the process (the outcome is given by the oracle `env`); on success
record the handle, add the name to `running_agents` and call
`register_agent`; on a spawn exception log and return `None`, leaving the
state untouched. -/
def start_agent (env : AgentInfo → Option Nat) (s : ManagerState) (info : AgentInfo) :
    StartResult :=
  if info.name ∈ s.running_agents then
    { state := s, handle := alookup s.processes info.name, spawned := false }
  else
    match env info with
    | some p =>
        { state := register_agent
            { s with
              processes := aset s.processes info.name p,
              running_agents := info.name :: s.running_agents } info,
          handle := some p,
          spawned := true }
    | none => { state := s, handle := none, spawned := true }

/-- `AgentServerManager.stop_agent`: if the name has an entry in `processes`,
terminate and reap the process, delete the entry and remove the name from
`running_agents`.  The Boolean reports whether a termination was performed.
Note: the registration thread for the name is not touched. -/
def stop_agent (s : ManagerState) (name : String) : ManagerState × Bool :=
  if (alookup s.processes name).isSome then
    ({ s with
        processes := aerase s.processes name,
        running_agents := s.running_agents.erase name }, true)
  else (s, false)

/-- Outcome of attempting to read `agents/config.json`. -/
inductive ConfigRead where
  | ok (agents : List AgentInfo)
  | fail
deriving DecidableEq

/-- `AgentServerManager.load_config`: return the parsed document, or on any
read/parse exception log the error and return the default
`{"agents": [], "server_config": {}}` (projected here to its agent list). -/
def load_config : ConfigRead → List AgentInfo
  | .ok agents => agents
  | .fail => []

/-- The stop loop of `update_agents`: iterate over a snapshot of
`running_agents` and stop every agent whose name is not in the current
config's name set.  Returns the state and the list of names actually
stopped, in order. -/
def stopPhase (s : ManagerState) (snapshot : List String) (current : List String) :
    ManagerState × List String :=
  match snapshot with
  | [] => (s, [])
  | n :: rest =>
    if n ∈ current then stopPhase s rest current
    else
      let r := stop_agent s n
      let q := stopPhase r.1 rest current
      (q.1, if r.2 then n :: q.2 else q.2)

/-- The start loop of `update_agents`: iterate over the config's agent list
and call `start_agent` for every entry whose name is not in
`running_agents`.  Returns the state and the list of names for which a
process spawn was attempted, in order. -/
def startPhase (env : AgentInfo → Option Nat) (s : ManagerState)
    (config : List AgentInfo) : ManagerState × List String :=
  match config with
  | [] => (s, [])
  | info :: rest =>
    if info.name ∈ s.running_agents then startPhase env s rest
    else
      let r := start_agent env s info
      let q := startPhase env r.state rest
      (q.1, if r.spawned then info.name :: q.2 else q.2)

/-- Result of one reconciliation pass: final state, names stopped, names for
which a spawn was attempted. -/
structure ReconcileResult where
  state : ManagerState
  stops : List String
  starts : List String
deriving DecidableEq

/-- `AgentServerManager.update_agents`: reload the config, stop the running
agents whose names are no longer in it, then start the config entries whose
names are not running. -/
def update_agents (env : AgentInfo → Option Nat) (s : ManagerState)
    (read : ConfigRead) : ReconcileResult :=
  let config := load_config read
  let current := config.map (·.name)
  let stopped := stopPhase s s.running_agents current
  let started := startPhase env stopped.1 config
  { state := started.1, stops := stopped.2, starts := started.2 }

/-- The loop body of `AgentServerManager.start_all_agents`: call
`start_agent` on every config entry in order (the already-running guard
lives inside `start_agent`). -/
def startAll (env : AgentInfo → Option Nat) (s : ManagerState) :
    List AgentInfo → ManagerState × List String
  | [] => (s, [])
  | info :: rest =>
    let r := start_agent env s info
    let q := startAll env r.state rest
    (q.1, if r.spawned then info.name :: q.2 else q.2)

/-- `AgentServerManager.start_all_agents`: load the config and start every
entry. -/
def start_all_agents (env : AgentInfo → Option Nat) (s : ManagerState)
    (read : ConfigRead) : ManagerState × List String :=
  startAll env s (load_config read)

/-- The stop loop of `AgentServerManager.stop_all_agents`. -/
def stopAllLoop (s : ManagerState) : List String → ManagerState
  | [] => s
  | n :: rest => stopAllLoop (stop_agent s n).1 rest

/-- `AgentServerManager.stop_all_agents`: set the shared `stop_registration`
event, then stop every agent in a snapshot of `running_agents` (the
discovery child process is terminated separately and is outside the fleet
state). -/
def stop_all_agents (s : ManagerState) : ManagerState :=
  let s0 : ManagerState := { s with stop_registration := true }
  stopAllLoop s0 s0.running_agents

/-- Fleet-state invariant of `AgentServerManager`: `running_agents` is a set
(duplicate-free), the `processes` keys are duplicate-free, every running
name has a process entry, and every process entry's name is running. -/
def Inv (s : ManagerState) : Prop :=
  s.running_agents.Nodup ∧ (s.processes.map Prod.fst).Nodup ∧
  (∀ n ∈ s.running_agents, (alookup s.processes n).isSome) ∧
  (∀ p ∈ s.processes, p.1 ∈ s.running_agents)

instance (s : ManagerState) : Decidable (Inv s) := by
  unfold Inv; infer_instance

/-! ### Discovery bootstrapper (`_start_discovery_engine` and friends) -/

/-- `max_retries = 15` in `_start_discovery_engine`'s polling loop. -/
def max_retries : Nat := 15

/-- The fixed sleep between health probes of the polling loop
(`time.sleep(2)`). -/
def poll_interval : Nat := 2

/-- The external environment seen by `_start_discovery_engine`:
the result of the initial health probe (`_is_discovery_engine_running`),
whether binding the registry port fails (`_is_port_in_use`), whether
`subprocess.Popen` succeeds, the health-probe result at each polling-loop
iteration, whether the child is observed exited (`poll()` not `None`) at
each iteration, and the child's captured output (`communicate()`). -/
structure DiscoveryEnv where
  initialHealthy : Bool
  portInUse : Bool
  launchOk : Bool
  loopHealthy : Nat → Bool
  exitedAt : Nat → Bool
  output : String

/-- How one `_start_discovery_engine` call ended: already healthy (no
launch), port conflict (no launch), `Popen` raised, healthy at polling
iteration `attempts` after a launch, child died during polling (its
captured output is surfaced), or the retry budget ran out (plain timeout,
no output surfaced). -/
inductive DiscoveryResult where
  | alreadyRunning
  | portConflict
  | launchError
  | started (attempts : Nat)
  | procDied (output : String)
  | timeout
deriving DecidableEq

/-- The `while retry_count < max_retries` polling loop: probe health (return
success if healthy), sleep `poll_interval`, then check whether the child
exited (return failure with its captured output if so); give up with a plain
timeout once the budget is exhausted. -/
def pollLoop (env : DiscoveryEnv) : Nat → Nat → DiscoveryResult
  | _, 0 => .timeout
  | i, fuel + 1 =>
    if env.loopHealthy i then .started i
    else if env.exitedAt i then .procDied env.output
    else pollLoop env (i + 1) fuel

/-- `AgentServerManager._start_discovery_engine`: return immediately if the
registry is already healthy; fail without launching if the registry port is
bound; otherwise launch the registry child process (a `Popen` exception is
caught and reported as failure) and run the polling loop. -/
def start_discovery_engine (env : DiscoveryEnv) : DiscoveryResult :=
  if env.initialHealthy then .alreadyRunning
  else if env.portInUse then .portConflict
  else if env.launchOk then pollLoop env 0 max_retries
  else .launchError

/-- The Boolean `_start_discovery_engine` returns: `True` exactly when the
registry was already healthy or became healthy during polling. -/
def discoverySuccess : DiscoveryResult → Bool
  | .alreadyRunning => true
  | .started _ => true
  | _ => false

/-- Whether the call spawned (or attempted to spawn) a registry child
process: everything past the two early returns. -/
def launchAttempted : DiscoveryResult → Bool
  | .alreadyRunning => false
  | .portConflict => false
  | _ => true

/-- Whether the failure surfaces the child's captured output
(`communicate()` is called only on the child-died path). -/
def carriesOutput : DiscoveryResult → Bool
  | .procDied _ => true
  | _ => false

/-! ### Supervisor startup (`__init__` and `run`) -/

/-- The credential environment checked by `_validate_credentials`. -/
structure Creds where
  hasOpenAI : Bool
  hasAzureKey : Bool
  hasAzureEndpoint : Bool
  hasAzureVersion : Bool

/-- `AgentServerManager._validate_credentials`'s acceptance condition:
an OpenAI key, or the full Azure OpenAI triple. -/
def validate_credentials (c : Creds) : Bool :=
  c.hasOpenAI || (c.hasAzureKey && c.hasAzureEndpoint && c.hasAzureVersion)

/-- `AgentServerManager.__init__`: validate credentials (raising on
failure), then `_ensure_discovery_engine` (raising when
`_start_discovery_engine` returns `False`); only then does a manager
instance, with an empty fleet, exist. -/
def manager_init (c : Creds) (denv : DiscoveryEnv) : Except String ManagerState :=
  if !validate_credentials c then
    .error "No valid API credentials found"
  else if discoverySuccess (start_discovery_engine denv) then
    .ok initState
  else
    .error "Failed to start discovery engine. Please check the logs for details."

/-- The startup path of the supervisor: construct the manager
(`__init__`), then `run` begins by calling `start_all_agents`.  Returns the
outcome together with the names of all workers for which a process spawn
was attempted. -/
def manager_startup (c : Creds) (denv : DiscoveryEnv)
    (env : AgentInfo → Option Nat) (read : ConfigRead) :
    Except String ManagerState × List String :=
  match manager_init c denv with
  | .error e => (.error e, [])
  | .ok s =>
    let r := start_all_agents env s read
    (.ok r.1, r.2)

/-! ### The runner's terminate path (`agent_runner.stop_all_agents`) -/

/-- `process.wait(timeout=5)`'s bound in `agent_runner.stop_all_agents`. -/
def graceful_timeout : Nat := 5

/-- Behaviour of one worker process under termination: how long after
`terminate()` it exits (more than `graceful_timeout` means it ignores the
graceful stop within the window), and whether `terminate()` or `kill()`
raise. -/
structure RunnerProc where
  exitDelay : Nat
  terminateRaises : Bool
  killRaises : Bool
deriving DecidableEq

/-- Final condition of the process after the runner's stop sequence. -/
inductive ProcOutcome where
  | exited
  | killed
  | leftAlive
deriving DecidableEq

/-- What one iteration of `agent_runner.stop_all_agents` produced: the
process outcome, the time spent in the graceful wait, and whether an
exception escaped to the caller. -/
structure TermResult where
  outcome : ProcOutcome
  elapsed : Nat
  raised : Bool
deriving DecidableEq

/-- One iteration of `agent_runner.stop_all_agents`'s loop:
`try: terminate(); wait(timeout=5)` — any exception (including the
`TimeoutExpired` of a process that ignores the graceful stop) is caught,
logged, and answered with `try: kill() except: pass`. -/
def stop_one (p : RunnerProc) : TermResult :=
  if p.terminateRaises then
    if p.killRaises then ⟨.leftAlive, 0, false⟩ else ⟨.killed, 0, false⟩
  else if p.exitDelay ≤ graceful_timeout then
    ⟨.exited, p.exitDelay, false⟩
  else
    if p.killRaises then ⟨.leftAlive, graceful_timeout, false⟩
    else ⟨.killed, graceful_timeout, false⟩

/-- `agent_runner.stop_all_agents`: run the stop sequence over every entry
of `running_processes`.  The loop never deletes from or otherwise marks the
`running_processes` mapping, which is returned unchanged as the second
component. -/
def runner_stop_all (procs : List (String × RunnerProc)) :
    List (String × TermResult) × List (String × RunnerProc) :=
  (procs.map (fun q => (q.1, stop_one q.2)), procs)

/-! ### Concrete fixtures used by witnesses and counterexamples -/

/-- A config entry for worker "A" on port 8001. -/
def infoA : AgentInfo := ⟨"A", "a.py", 8001, "demo worker", "1.0"⟩

/-- The same worker name "A" with only the port field changed. -/
def infoA9000 : AgentInfo := { infoA with port := 9000 }

/-- A config entry for a second worker "B". -/
def infoB : AgentInfo := ⟨"B", "b.py", 8002, "other worker", "1.0"⟩

/-- A spawn oracle under which every launch succeeds. -/
def envAll : AgentInfo → Option Nat := fun _ => some 1

/-- A spawn oracle under which every launch raises. -/
def envNone : AgentInfo → Option Nat := fun _ => none

/-- The fleet state right after launching `infoA` from the initial state:
one process, one running name, one registration thread. -/
def fleetA : ManagerState := ⟨[("A", 1)], ["A"], ["A"], false⟩

/-- A process that ignores the graceful stop (would exit only after 10 time
units) but can be force-killed. -/
def stubborn : RunnerProc := ⟨10, false, false⟩

/-- A bootstrap environment where the registry never becomes healthy and
the launched child never exits: the polling loop exhausts its budget. -/
def envTimeoutCase : DiscoveryEnv :=
  ⟨false, false, true, fun _ => false, fun _ => false, "registry boot log"⟩

/-- A bootstrap environment where the registry becomes healthy at polling
iteration 3. -/
def envHealthyAt3 : DiscoveryEnv :=
  ⟨false, false, true, fun i => i == 3, fun _ => false, "registry boot log"⟩

/-- A credential environment with an OpenAI key set. -/
def credsOpenAI : Creds := ⟨true, false, false, false⟩

/-! ### Association-list lemmas -/

theorem alookup_eq_none_iff (l : List (String × Nat)) (k : String) :
    alookup l k = none ↔ k ∉ l.map Prod.fst := by
  induction l with
  | nil => simp [alookup]
  | cons hd tl ih =>
    simp only [alookup, List.map_cons, List.mem_cons]
    split
    · rename_i h
      simp [h.symm]
    · rename_i h
      simp only [ih]
      constructor
      · intro hn hk
        rcases hk with hk | hk
        · exact h hk.symm
        · exact hn hk
      · intro hn
        exact fun hk => hn (Or.inr hk)

theorem alookup_isSome_iff (l : List (String × Nat)) (k : String) :
    (alookup l k).isSome = true ↔ k ∈ l.map Prod.fst := by
  constructor
  · intro h
    by_contra hk
    rw [(alookup_eq_none_iff l k).mpr hk] at h
    simp at h
  · intro h
    cases ho : alookup l k with
    | none => exact absurd ((alookup_eq_none_iff l k).mp ho) (not_not_intro h)
    | some v => simp

theorem alookup_aset (l : List (String × Nat)) (k : String) (v : Nat) (n : String) :
    alookup (aset l k v) n = if k = n then some v else alookup l n := by
  induction l with
  | nil => simp [aset, alookup]
  | cons hd tl ih =>
    simp only [aset]
    split
    · rename_i h
      subst h
      simp only [alookup]
      by_cases h3 : hd.1 = n <;> simp [h3]
    · rename_i h
      simp only [alookup, ih]
      split
      · rename_i h2
        rw [if_neg (fun he => h (h2.trans he.symm))]
      · rfl

theorem mem_aset (l : List (String × Nat)) (k : String) (v : Nat)
    (p : String × Nat) (hp : p ∈ aset l k v) : p ∈ l ∨ p = (k, v) := by
  induction l with
  | nil => simp [aset] at hp; simp [hp]
  | cons hd tl ih =>
    simp only [aset] at hp
    split at hp
    · rcases List.mem_cons.mp hp with h | h
      · exact Or.inr h
      · exact Or.inl (List.mem_cons_of_mem hd h)
    · rcases List.mem_cons.mp hp with h | h
      · exact Or.inl (h ▸ List.mem_cons_self hd tl)
      · rcases ih h with h2 | h2
        · exact Or.inl (List.mem_cons_of_mem hd h2)
        · exact Or.inr h2

theorem aset_keys_of_not_mem (l : List (String × Nat)) (k : String) (v : Nat)
    (h : k ∉ l.map Prod.fst) :
    (aset l k v).map Prod.fst = l.map Prod.fst ++ [k] := by
  induction l with
  | nil => simp [aset]
  | cons hd tl ih =>
    simp only [List.map_cons, List.mem_cons] at h
    push_neg at h
    simp only [aset]
    rw [if_neg (fun he => h.1 he.symm)]
    simp [ih h.2]

theorem aerase_keys (l : List (String × Nat)) (k : String) :
    (aerase l k).map Prod.fst = (l.map Prod.fst).erase k := by
  induction l with
  | nil => simp [aerase]
  | cons hd tl ih =>
    simp only [aerase, List.map_cons]
    split
    · rename_i h
      subst h
      rw [List.erase_cons_head]
    · rename_i h
      simp [List.erase_cons, h, ih]

theorem aerase_subset (l : List (String × Nat)) (k : String)
    (p : String × Nat) (hp : p ∈ aerase l k) : p ∈ l := by
  induction l with
  | nil => simp [aerase] at hp
  | cons hd tl ih =>
    simp only [aerase] at hp
    split at hp
    · exact List.mem_cons_of_mem hd hp
    · rcases List.mem_cons.mp hp with h | h
      · exact h ▸ List.mem_cons_self hd tl
      · exact List.mem_cons_of_mem hd (ih h)

theorem alookup_aerase (l : List (String × Nat)) (k : String)
    (hnd : (l.map Prod.fst).Nodup) (n : String) :
    alookup (aerase l k) n = if k = n then none else alookup l n := by
  induction l with
  | nil => simp [aerase, alookup]
  | cons hd tl ih =>
    simp only [List.map_cons, List.nodup_cons] at hnd
    simp only [aerase]
    split
    · rename_i h
      subst h
      split
      · rename_i h2
        subst h2
        exact (alookup_eq_none_iff tl hd.1).mpr hnd.1
      · rename_i h2
        simp only [alookup]
        rw [if_neg h2]
    · rename_i h
      simp only [alookup, ih hnd.2]
      split
      · rename_i h2
        rw [if_neg (fun he => h (h2.trans he.symm))]
      · rfl

/-! ### Invariant and single-operation lemmas -/

theorem Inv.mem_iff {s : ManagerState} (h : Inv s) (n : String) :
    n ∈ s.running_agents ↔ (alookup s.processes n).isSome = true := by
  constructor
  · exact fun hn => h.2.2.1 n hn
  · intro hn
    rcases List.mem_map.mp ((alookup_isSome_iff s.processes n).mp hn) with ⟨p, hp, hpn⟩
    exact hpn ▸ h.2.2.2 p hp

theorem start_agent_of_mem (env : AgentInfo → Option Nat) (s : ManagerState)
    (info : AgentInfo) (h : info.name ∈ s.running_agents) :
    start_agent env s info =
      ⟨s, alookup s.processes info.name, false⟩ := by
  simp [start_agent, h]

theorem start_agent_state_of_none (env : AgentInfo → Option Nat) (s : ManagerState)
    (info : AgentInfo) (h : env info = none) :
    (start_agent env s info).state = s := by
  unfold start_agent
  split
  · rfl
  · rw [h]

theorem start_agent_inv (env : AgentInfo → Option Nat) (s : ManagerState)
    (info : AgentInfo) (hInv : Inv s) : Inv (start_agent env s info).state := by
  unfold start_agent
  split
  · exact hInv
  · rename_i hmem
    cases he : env info with
    | none => exact hInv
    | some p =>
      have hkey : info.name ∉ s.processes.map Prod.fst := by
        intro hk
        rcases List.mem_map.mp hk with ⟨q, hq, hqn⟩
        exact hmem (hqn ▸ hInv.2.2.2 q hq)
      refine ⟨?_, ?_, ?_, ?_⟩
      · show (info.name :: s.running_agents).Nodup
        exact List.nodup_cons.mpr ⟨hmem, hInv.1⟩
      · show ((aset s.processes info.name p).map Prod.fst).Nodup
        rw [aset_keys_of_not_mem s.processes info.name p hkey]
        rw [List.nodup_append]
        refine ⟨hInv.2.1, List.nodup_singleton _, fun x hx hx2 => ?_⟩
        rw [List.mem_singleton] at hx2
        exact hkey (hx2 ▸ hx)
      · intro n hn
        change n ∈ info.name :: s.running_agents at hn
        show (alookup (aset s.processes info.name p) n).isSome = true
        rw [alookup_aset]
        rcases List.mem_cons.mp hn with h1 | h1
        · simp [h1]
        · split
          · simp
          · exact hInv.2.2.1 n h1
      · intro q hq
        change q ∈ aset s.processes info.name p at hq
        show q.1 ∈ info.name :: s.running_agents
        rcases mem_aset s.processes info.name p q hq with h1 | h1
        · exact List.mem_cons_of_mem _ (hInv.2.2.2 q h1)
        · simp [h1]

theorem stop_agent_inv (s : ManagerState) (n : String) (hInv : Inv s) :
    Inv (stop_agent s n).1 := by
  unfold stop_agent
  split
  · refine ⟨hInv.1.erase n, ?_, ?_, ?_⟩
    · rw [aerase_keys]
      exact hInv.2.1.erase n
    · intro m hm
      simp only at hm
      have hm2 := (List.Nodup.mem_erase_iff hInv.1).mp hm
      simp only
      rw [alookup_aerase s.processes n hInv.2.1 m, if_neg (fun he => hm2.1 he.symm)]
      exact hInv.2.2.1 m hm2.2
    · intro q hq
      simp only at hq ⊢
      have hql : q ∈ s.processes := aerase_subset s.processes n q hq
      have hqk : q.1 ∈ (aerase s.processes n).map Prod.fst := List.mem_map_of_mem Prod.fst hq
      rw [aerase_keys] at hqk
      have hne : q.1 ≠ n := ((List.Nodup.mem_erase_iff hInv.2.1).mp hqk).1
      exact (List.Nodup.mem_erase_iff hInv.1).mpr ⟨hne, hInv.2.2.2 q hql⟩
  · exact hInv

theorem stop_agent_mem (s : ManagerState) (n m : String) (hInv : Inv s) :
    m ∈ (stop_agent s n).1.running_agents ↔ m ≠ n ∧ m ∈ s.running_agents := by
  unfold stop_agent
  split
  · rename_i hsome
    simp only
    exact List.Nodup.mem_erase_iff hInv.1
  · rename_i hnone
    simp only
    constructor
    · intro hm
      refine ⟨fun he => ?_, hm⟩
      subst he
      exact hnone ((hInv.mem_iff m).mp hm)
    · exact fun hm => hm.2

theorem stop_agent_other (s : ManagerState) (n : String) :
    (stop_agent s n).1.regThreads = s.regThreads ∧
    (stop_agent s n).1.stop_registration = s.stop_registration := by
  unfold stop_agent
  split <;> exact ⟨rfl, rfl⟩

theorem start_agent_other (env : AgentInfo → Option Nat) (s : ManagerState)
    (info : AgentInfo) :
    (∀ m ∈ s.regThreads, m ∈ (start_agent env s info).state.regThreads) ∧
    (start_agent env s info).state.stop_registration = s.stop_registration := by
  unfold start_agent
  split
  · exact ⟨fun m hm => hm, rfl⟩
  · cases env info with
    | none => exact ⟨fun m hm => hm, rfl⟩
    | some p =>
      exact ⟨fun m hm => List.mem_cons_of_mem _ hm, rfl⟩

theorem start_agent_mem (env : AgentInfo → Option Nat) (s : ManagerState)
    (info : AgentInfo) (m : String) :
    m ∈ (start_agent env s info).state.running_agents ↔
      m ∈ s.running_agents ∨ (m = info.name ∧ (env info).isSome = true) := by
  unfold start_agent
  split
  · rename_i hmem
    simp only
    constructor
    · exact fun h => Or.inl h
    · rintro (h | h)
      · exact h
      · exact h.1 ▸ hmem
  · cases he : env info with
    | none => simp
    | some p =>
      constructor
      · intro hmm
        rcases List.mem_cons.mp hmm with h | h
        · exact Or.inr ⟨h, by simp⟩
        · exact Or.inl h
      · rintro (h | h)
        · exact List.mem_cons_of_mem _ h
        · exact h.1 ▸ List.mem_cons_self _ _

/-! ### Reconciliation-phase lemmas -/

theorem stopPhase_inv (snap : List String) (s : ManagerState) (cur : List String)
    (hInv : Inv s) : Inv (stopPhase s snap cur).1 := by
  induction snap generalizing s with
  | nil => exact hInv
  | cons n rest ih =>
    simp only [stopPhase]
    split
    · exact ih s hInv
    · exact ih (stop_agent s n).1 (stop_agent_inv s n hInv)

theorem stopPhase_mem (snap : List String) (s : ManagerState) (cur : List String)
    (m : String) (hInv : Inv s) :
    m ∈ (stopPhase s snap cur).1.running_agents ↔
      m ∈ s.running_agents ∧ (m ∈ snap → m ∈ cur) := by
  induction snap generalizing s with
  | nil => simp [stopPhase]
  | cons n rest ih =>
    simp only [stopPhase]
    split
    · rename_i hn
      rw [ih s hInv]
      constructor
      · intro h
        refine ⟨h.1, fun hm => ?_⟩
        rcases List.mem_cons.mp hm with he | he
        · exact he ▸ hn
        · exact h.2 he
      · intro h
        exact ⟨h.1, fun hm => h.2 (List.mem_cons_of_mem n hm)⟩
    · rename_i hn
      rw [ih (stop_agent s n).1 (stop_agent_inv s n hInv)]
      rw [stop_agent_mem s n m hInv]
      constructor
      · intro h
        refine ⟨h.1.2, fun hm => ?_⟩
        rcases List.mem_cons.mp hm with he | he
        · exact absurd he h.1.1
        · exact h.2 he
      · intro h
        have hne : m ≠ n := by
          intro he
          subst he
          exact hn (h.2 (List.mem_cons_self m rest))
        exact ⟨⟨hne, h.1⟩, fun hm => h.2 (List.mem_cons_of_mem n hm)⟩

theorem stopPhase_noop (snap : List String) (s : ManagerState) (cur : List String)
    (h : ∀ n ∈ snap, n ∈ cur) : stopPhase s snap cur = (s, []) := by
  induction snap with
  | nil => rfl
  | cons n rest ih =>
    simp only [stopPhase]
    rw [if_pos (h n (List.mem_cons_self n rest))]
    exact ih (fun m hm => h m (List.mem_cons_of_mem n hm))

theorem stopPhase_stops_all (snap : List String) (s : ManagerState)
    (hInv : Inv s) (hnd : snap.Nodup) (hrun : ∀ n ∈ snap, n ∈ s.running_agents) :
    (stopPhase s snap []).2 = snap := by
  induction snap generalizing s with
  | nil => rfl
  | cons n rest ih =>
    simp only [stopPhase]
    rw [if_neg (List.not_mem_nil n)]
    have hsome : (alookup s.processes n).isSome = true :=
      (hInv.mem_iff n).mp (hrun n (List.mem_cons_self n rest))
    have hstop : (stop_agent s n).2 = true := by
      unfold stop_agent
      rw [if_pos hsome]
    have hnd2 := List.nodup_cons.mp hnd
    have hrest : ∀ m ∈ rest, m ∈ (stop_agent s n).1.running_agents := by
      intro m hm
      rw [stop_agent_mem s n m hInv]
      exact ⟨fun he => hnd2.1 (he ▸ hm), hrun m (List.mem_cons_of_mem n hm)⟩
    rw [hstop]
    simp only [if_pos]
    rw [ih (stop_agent s n).1 (stop_agent_inv s n hInv) hnd2.2 hrest]

theorem stopPhase_other (snap : List String) (s : ManagerState) (cur : List String) :
    (stopPhase s snap cur).1.regThreads = s.regThreads ∧
    (stopPhase s snap cur).1.stop_registration = s.stop_registration := by
  induction snap generalizing s with
  | nil => exact ⟨rfl, rfl⟩
  | cons n rest ih =>
    simp only [stopPhase]
    split
    · exact ih s
    · have h1 := stop_agent_other s n
      have h2 := ih (stop_agent s n).1
      exact ⟨h2.1.trans h1.1, h2.2.trans h1.2⟩

theorem startPhase_inv (config : List AgentInfo) (env : AgentInfo → Option Nat)
    (s : ManagerState) (hInv : Inv s) : Inv (startPhase env s config).1 := by
  induction config generalizing s with
  | nil => exact hInv
  | cons info rest ih =>
    simp only [startPhase]
    split
    · exact ih s hInv
    · exact ih (start_agent env s info).state (start_agent_inv env s info hInv)

theorem startPhase_mem (config : List AgentInfo) (env : AgentInfo → Option Nat)
    (s : ManagerState) (m : String)
    (hsucc : ∀ info ∈ config, (env info).isSome = true) :
    m ∈ (startPhase env s config).1.running_agents ↔
      m ∈ s.running_agents ∨ m ∈ config.map (·.name) := by
  induction config generalizing s with
  | nil => simp [startPhase]
  | cons info rest ih =>
    have hs : (env info).isSome = true := hsucc info (List.mem_cons_self info rest)
    have hrest : ∀ i ∈ rest, (env i).isSome = true :=
      fun i hi => hsucc i (List.mem_cons_of_mem info hi)
    simp only [startPhase]
    split
    · rename_i hmem
      rw [ih s hrest]
      simp only [List.map_cons, List.mem_cons]
      constructor
      · rintro (h | h)
        · exact Or.inl h
        · exact Or.inr (Or.inr h)
      · rintro (h | h | h)
        · exact Or.inl h
        · exact Or.inl (h ▸ hmem)
        · exact Or.inr h
    · rw [ih (start_agent env s info).state hrest]
      rw [start_agent_mem env s info m]
      simp only [List.map_cons, List.mem_cons]
      constructor
      · rintro ((h | h) | h)
        · exact Or.inl h
        · exact Or.inr (Or.inl h.1)
        · exact Or.inr (Or.inr h)
      · rintro (h | h | h)
        · exact Or.inl (Or.inl h)
        · exact Or.inl (Or.inr ⟨h, hs⟩)
        · exact Or.inr h

theorem startPhase_mem_of_absent (config : List AgentInfo)
    (env : AgentInfo → Option Nat) (s : ManagerState) (m : String)
    (habs : m ∉ config.map (·.name)) :
    m ∈ (startPhase env s config).1.running_agents ↔ m ∈ s.running_agents := by
  induction config generalizing s with
  | nil => simp [startPhase]
  | cons info rest ih =>
    simp only [List.map_cons, List.mem_cons] at habs
    push_neg at habs
    simp only [startPhase]
    split
    · exact ih s habs.2
    · rw [ih (start_agent env s info).state habs.2]
      rw [start_agent_mem env s info m]
      constructor
      · rintro (h | h)
        · exact h
        · exact absurd h.1 habs.1
      · exact fun h => Or.inl h

theorem startPhase_noop (config : List AgentInfo) (env : AgentInfo → Option Nat)
    (s : ManagerState) (h : ∀ info ∈ config, info.name ∈ s.running_agents) :
    startPhase env s config = (s, []) := by
  induction config with
  | nil => rfl
  | cons info rest ih =>
    simp only [startPhase]
    rw [if_pos (h info (List.mem_cons_self info rest))]
    exact ih (fun i hi => h i (List.mem_cons_of_mem info hi))

theorem startPhase_other (config : List AgentInfo) (env : AgentInfo → Option Nat)
    (s : ManagerState) :
    (∀ m ∈ s.regThreads, m ∈ (startPhase env s config).1.regThreads) ∧
    (startPhase env s config).1.stop_registration = s.stop_registration := by
  induction config generalizing s with
  | nil => exact ⟨fun m hm => hm, rfl⟩
  | cons info rest ih =>
    simp only [startPhase]
    split
    · exact ih s
    · have h1 := start_agent_other env s info
      have h2 := ih (start_agent env s info).state
      exact ⟨fun m hm => h2.1 m (h1.1 m hm), h2.2.trans h1.2⟩

theorem startAll_inv (config : List AgentInfo) (env : AgentInfo → Option Nat)
    (s : ManagerState) (hInv : Inv s) : Inv (startAll env s config).1 := by
  induction config generalizing s with
  | nil => exact hInv
  | cons info rest ih =>
    simp only [startAll]
    exact ih (start_agent env s info).state (start_agent_inv env s info hInv)

theorem stopAllLoop_inv (snap : List String) (s : ManagerState) (hInv : Inv s) :
    Inv (stopAllLoop s snap) := by
  induction snap generalizing s with
  | nil => exact hInv
  | cons n rest ih =>
    simp only [stopAllLoop]
    exact ih (stop_agent s n).1 (stop_agent_inv s n hInv)

/-! ### Reconciliation lemmas -/

theorem update_agents_inv (env : AgentInfo → Option Nat) (s : ManagerState)
    (read : ConfigRead) (hInv : Inv s) : Inv (update_agents env s read).state := by
  unfold update_agents
  exact startPhase_inv _ env _
    (stopPhase_inv s.running_agents s _ hInv)

theorem update_agents_mem (env : AgentInfo → Option Nat) (s : ManagerState)
    (agents : List AgentInfo) (m : String) (hInv : Inv s)
    (hsucc : ∀ info ∈ agents, (env info).isSome = true) :
    m ∈ (update_agents env s (.ok agents)).state.running_agents ↔
      m ∈ agents.map (·.name) := by
  unfold update_agents load_config
  simp only
  rw [startPhase_mem agents env _ m hsucc]
  rw [stopPhase_mem s.running_agents s (agents.map (·.name)) m hInv]
  constructor
  · rintro (h | h)
    · exact h.2 h.1
    · exact h
  · exact fun h => Or.inr h

theorem reconcile_noop (env : AgentInfo → Option Nat) (s : ManagerState)
    (agents : List AgentInfo)
    (h1 : ∀ n ∈ s.running_agents, n ∈ agents.map (·.name))
    (h2 : ∀ info ∈ agents, info.name ∈ s.running_agents) :
    update_agents env s (.ok agents) = ⟨s, [], []⟩ := by
  unfold update_agents load_config
  simp only
  rw [stopPhase_noop s.running_agents s (agents.map (·.name)) h1]
  rw [startPhase_noop agents env s h2]

theorem update_agents_other (env : AgentInfo → Option Nat) (s : ManagerState)
    (read : ConfigRead) :
    (∀ m ∈ s.regThreads, m ∈ (update_agents env s read).state.regThreads) ∧
    (update_agents env s read).state.stop_registration = s.stop_registration := by
  unfold update_agents
  have h1 := stopPhase_other s.running_agents s ((load_config read).map (·.name))
  have h2 := startPhase_other (load_config read) env
    (stopPhase s s.running_agents ((load_config read).map (·.name))).1
  refine ⟨fun m hm => h2.1 m ?_, h2.2.trans h1.2⟩
  rw [h1.1]
  exact hm

/-! ### Discovery polling-loop lemmas -/

theorem pollLoop_timeout (env : DiscoveryEnv) (fuel i : Nat)
    (h : ∀ j, j < fuel → env.loopHealthy (i + j) = false ∧ env.exitedAt (i + j) = false) :
    pollLoop env i fuel = .timeout := by
  induction fuel generalizing i with
  | zero => rfl
  | succ fuel ih =>
    have h0 := h 0 (Nat.succ_pos fuel)
    simp only [Nat.add_zero] at h0
    simp only [pollLoop, h0.1, h0.2]
    simp only [Bool.false_eq_true, if_false]
    exact ih (i + 1) (fun j hj => by
      have := h (j + 1) (Nat.succ_lt_succ hj)
      rwa [Nat.add_comm j 1, ← Nat.add_assoc] at this)

theorem pollLoop_started (env : DiscoveryEnv) (fuel i k : Nat)
    (hk : k < fuel) (hh : env.loopHealthy (i + k) = true)
    (hbefore : ∀ j, j < k → env.loopHealthy (i + j) = false ∧ env.exitedAt (i + j) = false) :
    pollLoop env i fuel = .started (i + k) := by
  induction fuel generalizing i k with
  | zero => exact absurd hk (Nat.not_lt_zero k)
  | succ fuel ih =>
    cases k with
    | zero =>
      simp only [Nat.add_zero] at hh
      simp only [pollLoop, hh, if_true, Nat.add_zero]
    | succ k =>
      have h0 := hbefore 0 (Nat.succ_pos k)
      simp only [Nat.add_zero] at h0
      simp only [pollLoop, h0.1, h0.2]
      simp only [Bool.false_eq_true, if_false]
      have hrec := ih (i + 1) k (Nat.lt_of_succ_lt_succ hk)
        (by rw [show i + 1 + k = i + (k + 1) by omega]; exact hh)
        (fun j hj => by
          have := hbefore (j + 1) (Nat.succ_lt_succ hj)
          rwa [Nat.add_comm j 1, ← Nat.add_assoc] at this)
      rw [hrec]
      congr 1
      omega

theorem pollLoop_no_success (env : DiscoveryEnv) (fuel i : Nat)
    (h : ∀ j, j < fuel → env.loopHealthy (i + j) = false) :
    discoverySuccess (pollLoop env i fuel) = false := by
  induction fuel generalizing i with
  | zero => rfl
  | succ fuel ih =>
    have h0 := h 0 (Nat.succ_pos fuel)
    simp only [Nat.add_zero] at h0
    simp only [pollLoop, h0]
    simp only [Bool.false_eq_true, if_false]
    split
    · rfl
    · exact ih (i + 1) (fun j hj => by
        have := h (j + 1) (Nat.succ_lt_succ hj)
        rwa [Nat.add_comm j 1, ← Nat.add_assoc] at this)

theorem discovery_fails_of_unhealthy (denv : DiscoveryEnv)
    (h1 : denv.initialHealthy = false)
    (hfail : ∀ i, i < max_retries → denv.loopHealthy i = false) :
    discoverySuccess (start_discovery_engine denv) = false := by
  unfold start_discovery_engine
  rw [h1]
  simp only [Bool.false_eq_true, if_false]
  split
  · rfl
  · split
    · exact pollLoop_no_success denv max_retries 0 (fun j hj => by
        have := hfail j hj
        rwa [Nat.zero_add])
    · rfl

/-! ### Runner terminate lemmas -/

theorem stop_one_never_raises (p : RunnerProc) : (stop_one p).raised = false := by
  unfold stop_one
  split
  · split <;> rfl
  · split
    · rfl
    · split <;> rfl

theorem stop_one_elapsed_le (p : RunnerProc) :
    (stop_one p).elapsed ≤ graceful_timeout := by
  unfold stop_one
  split
  · split
    · exact Nat.zero_le _
    · exact Nat.zero_le _
  · split
    · rename_i hle
      exact hle
    · split <;> exact Nat.le_refl _

theorem stop_one_kills_stubborn (p : RunnerProc)
    (hd : graceful_timeout < p.exitDelay)
    (ht : p.terminateRaises = false) (hk : p.killRaises = false) :
    (stop_one p).outcome = .killed := by
  unfold stop_one
  rw [ht]
  simp only [Bool.false_eq_true, if_false]
  rw [if_neg (Nat.not_le_of_lt hd), hk]
  simp

theorem runner_stop_all_keeps_map (procs : List (String × RunnerProc)) :
    (runner_stop_all procs).2 = procs := rfl

/-! ### Claim theorems -/

/-- C1: for every desired configuration whose worker entries all launch
successfully, one `update_agents` pass makes the set of running worker
names exactly the set of names in the configuration: no omissions and no
extras. -/
theorem c1_reconcile_running_set (env : AgentInfo → Option Nat) (s : ManagerState)
    (agents : List AgentInfo) (hInv : Inv s)
    (hsucc : ∀ info ∈ agents, (env info).isSome = true) :
    (update_agents env s (.ok agents)).state.running_agents.toFinset =
      (agents.map (·.name)).toFinset := by
  apply Finset.ext
  intro m
  rw [List.mem_toFinset, List.mem_toFinset]
  exact update_agents_mem env s agents m hInv hsucc

/-- Witness for C1 at a concrete fleet and configuration. -/
theorem c1_witness :
    Inv initState ∧ (∀ info ∈ [infoA], (envAll info).isSome = true) ∧
    (update_agents envAll initState (.ok [infoA])).state.running_agents.toFinset =
      ([infoA].map (·.name)).toFinset :=
  ⟨by decide, by decide,
    c1_reconcile_running_set envAll initState [infoA] (by decide) (by decide)⟩

/-- C2 counterexample: from the state reached by launching worker "A" on
port 8001, reconciling against a config holding the same name with only the
port changed to 9000 performs zero stops and zero starts and leaves the
state untouched — not the claimed one stop followed by one start. -/
theorem c2_counterexample :
    (start_agent envAll initState infoA).state = fleetA ∧
    update_agents envAll fleetA (.ok [infoA9000]) =
      { state := fleetA, stops := [], starts := [] } := by
  decide

/-- C2 amended: a changed spec for an existing worker name is matched by
name alone, not name-plus-fields: whenever the config's name set covers the
running set and vice versa (in particular when only the port of an existing
name changed), the reconciliation pass performs no stop and no start and
returns the fleet state unchanged. -/
theorem c2_amended_same_names_noop (env : AgentInfo → Option Nat)
    (s : ManagerState) (agents : List AgentInfo)
    (h1 : ∀ n ∈ s.running_agents, n ∈ agents.map (·.name))
    (h2 : ∀ info ∈ agents, info.name ∈ s.running_agents) :
    update_agents env s (.ok agents) = { state := s, stops := [], starts := [] } :=
  reconcile_noop env s agents h1 h2

/-- Witness for the amended C2 at a concrete fleet and port change. -/
theorem c2_witness :
    (∀ n ∈ fleetA.running_agents, n ∈ [infoA9000].map (·.name)) ∧
    (∀ info ∈ [infoA9000], info.name ∈ fleetA.running_agents) ∧
    update_agents envAll fleetA (.ok [infoA9000]) =
      { state := fleetA, stops := [], starts := [] } :=
  ⟨by decide, by decide,
    c2_amended_same_names_noop envAll fleetA [infoA9000] (by decide) (by decide)⟩

/-- C3 counterexample: with worker "A" running, a reconciliation triggered
by a failed configuration read does not leave the fleet unchanged — it
stops "A" and empties the running set. -/
theorem c3_counterexample :
    (update_agents envAll fleetA .fail).state ≠ fleetA ∧
    (update_agents envAll fleetA .fail).stops = ["A"] ∧
    (update_agents envAll fleetA .fail).state.running_agents = [] := by
  decide

/-- C3 amended: a malformed or unreadable configuration document on reload
is treated as the empty configuration (`load_config` falls back to an empty
agent list), so the triggered reconciliation stops every running worker
instead of retaining the previous desired state. -/
theorem c3_amended_fail_stops_all (env : AgentInfo → Option Nat)
    (s : ManagerState) (hInv : Inv s) :
    (update_agents env s .fail).state.running_agents = [] ∧
    (update_agents env s .fail).stops = s.running_agents := by
  constructor
  · apply List.eq_nil_iff_forall_not_mem.mpr
    intro m hm
    have hm2 : m ∈ (stopPhase s s.running_agents []).1.running_agents := hm
    rw [stopPhase_mem s.running_agents s [] m hInv] at hm2
    exact List.not_mem_nil m (hm2.2 hm2.1)
  · show (stopPhase s s.running_agents []).2 = s.running_agents
    exact stopPhase_stops_all s.running_agents s hInv hInv.1 (fun n hn => hn)

/-- Witness for the amended C3 at a concrete fleet. -/
theorem c3_witness :
    Inv fleetA ∧
    (update_agents envAll fleetA .fail).state.running_agents = [] ∧
    (update_agents envAll fleetA .fail).stops = fleetA.running_agents :=
  ⟨by decide, (c3_amended_fail_stops_all envAll fleetA (by decide)).1,
    (c3_amended_fail_stops_all envAll fleetA (by decide)).2⟩

/-- C4 counterexample: removing worker "A" from the configuration and
reconciling terminates its process, but its Registration Loop is still
active afterwards — registration calls for "A" keep being issued. -/
theorem c4_counterexample :
    alookup (update_agents envAll fleetA (.ok [])).state.processes "A" = none ∧
    "A" ∉ (update_agents envAll fleetA (.ok [])).state.running_agents ∧
    regLoopActive (update_agents envAll fleetA (.ok [])).state "A" = true := by
  decide

/-- C4 amended: removing a worker's entry and reconciling terminates its
process and removes it from the fleet state, but does not cancel its
Registration Loop: `stop_agent` never touches the registration thread, so
the loop stays active and keeps issuing registration calls for that name
(only `stop_all_agents` sets the shared stop event). -/
theorem c4_amended_regloop_survives (env : AgentInfo → Option Nat)
    (s : ManagerState) (agents : List AgentInfo) (n : String) (hInv : Inv s)
    (_hrun : n ∈ s.running_agents) (hgone : n ∉ agents.map (·.name))
    (hthread : n ∈ s.regThreads) (hstop : s.stop_registration = false) :
    alookup (update_agents env s (.ok agents)).state.processes n = none ∧
    n ∉ (update_agents env s (.ok agents)).state.running_agents ∧
    regLoopActive (update_agents env s (.ok agents)).state n = true := by
  have hInvr := update_agents_inv env s (.ok agents) hInv
  have hnot : n ∉ (update_agents env s (.ok agents)).state.running_agents := by
    show n ∉ (startPhase env
      (stopPhase s s.running_agents (agents.map (·.name))).1 agents).1.running_agents
    rw [startPhase_mem_of_absent agents env _ n hgone]
    rw [stopPhase_mem s.running_agents s (agents.map (·.name)) n hInv]
    intro h
    exact hgone (h.2 h.1)
  have hlook : alookup (update_agents env s (.ok agents)).state.processes n = none := by
    cases hl : alookup (update_agents env s (.ok agents)).state.processes n with
    | none => rfl
    | some v => exact absurd ((hInvr.mem_iff n).mpr (by rw [hl]; rfl)) hnot
  have hother := update_agents_other env s (.ok agents)
  refine ⟨hlook, hnot, ?_⟩
  unfold regLoopActive
  rw [hother.2, hstop]
  simp only [Bool.not_false, Bool.true_and]
  exact decide_eq_true (hother.1 n hthread)

/-- Witness for the amended C4: worker "A" removed while "B" is desired. -/
theorem c4_witness :
    alookup (update_agents envAll fleetA (.ok [infoB])).state.processes "A" = none ∧
    "A" ∉ (update_agents envAll fleetA (.ok [infoB])).state.running_agents ∧
    regLoopActive (update_agents envAll fleetA (.ok [infoB])).state "A" = true :=
  c4_amended_regloop_survives envAll fleetA [infoB] "A"
    (by decide) (by decide) (by decide) (by decide) rfl

/-- C5 counterexample: the runner's stop loop force-kills a process that
ignores the graceful stop, but it does not mark the handle stopped on
either path — the `running_processes` mapping is returned unchanged. -/
theorem c5_counterexample :
    (stop_one stubborn).outcome = .killed ∧
    (runner_stop_all [("A", stubborn)]).2 = [("A", stubborn)] := by
  decide

/-- C5 amended: the runner's per-handle terminate sends a graceful stop,
waits at most `graceful_timeout` (5 time units), force-kills a process
still alive after the wait (when `kill` itself does not raise), and never
propagates an exception — it completes even against a process ignoring the
graceful stop — but it does not mark the handle stopped: the
`running_processes` mapping is left unchanged. -/
theorem c5_amended_terminate (p : RunnerProc) :
    (stop_one p).raised = false ∧
    (stop_one p).elapsed ≤ graceful_timeout ∧
    (graceful_timeout < p.exitDelay → p.terminateRaises = false →
      p.killRaises = false → (stop_one p).outcome = .killed) ∧
    (∀ procs : List (String × RunnerProc), (runner_stop_all procs).2 = procs) :=
  ⟨stop_one_never_raises p, stop_one_elapsed_le p,
    fun hd ht hk => stop_one_kills_stubborn p hd ht hk,
    fun procs => runner_stop_all_keeps_map procs⟩

/-- Witness for the amended C5 at a process ignoring graceful stop. -/
theorem c5_witness :
    (stop_one stubborn).raised = false ∧
    (stop_one stubborn).elapsed ≤ graceful_timeout ∧
    (stop_one stubborn).outcome = .killed ∧
    (runner_stop_all [("B", stubborn)]).2 = [("B", stubborn)] :=
  ⟨(c5_amended_terminate stubborn).1, (c5_amended_terminate stubborn).2.1,
    (c5_amended_terminate stubborn).2.2.1 (by decide) rfl rfl,
    (c5_amended_terminate stubborn).2.2.2 [("B", stubborn)]⟩

/-- C6 counterexample: when the polling loop exhausts its `max_retries`
budget, the bootstrap returns a plain timeout failure that does not carry
the captured process output (output is surfaced only when the launched
child exits during polling), contradicting the claim's
failure-with-captured-output after exhausting retries. -/
theorem c6_counterexample :
    start_discovery_engine envTimeoutCase = .timeout ∧
    carriesOutput (start_discovery_engine envTimeoutCase) = false ∧
    launchAttempted (start_discovery_engine envTimeoutCase) = true := by
  decide

/-- C6 amended: the three-step bootstrap contract, with the exhausted-retry
failure being a plain timeout without captured output: an initially healthy
registry short-circuits with no launch; an unhealthy probe with a bound
port reports the conflict with no launch; otherwise the launched child is
polled up to `max_retries` times, succeeding at the first healthy probe and
failing with a timeout after exhausting the budget. -/
theorem c6_amended_bootstrap_contract (env : DiscoveryEnv) :
    (env.initialHealthy = true →
      start_discovery_engine env = .alreadyRunning ∧
      launchAttempted (start_discovery_engine env) = false) ∧
    (env.initialHealthy = false → env.portInUse = true →
      start_discovery_engine env = .portConflict ∧
      launchAttempted (start_discovery_engine env) = false) ∧
    (env.initialHealthy = false → env.portInUse = false → env.launchOk = true →
      (∀ i, i < max_retries → env.loopHealthy i = false ∧ env.exitedAt i = false) →
      start_discovery_engine env = .timeout) ∧
    (env.initialHealthy = false → env.portInUse = false → env.launchOk = true →
      ∀ k, k < max_retries → env.loopHealthy k = true →
      (∀ i, i < k → env.loopHealthy i = false ∧ env.exitedAt i = false) →
      start_discovery_engine env = .started k) := by
  refine ⟨?_, ?_, ?_, ?_⟩
  · intro h
    constructor <;> simp [start_discovery_engine, h, launchAttempted]
  · intro h1 h2
    constructor <;> simp [start_discovery_engine, h1, h2, launchAttempted]
  · intro h1 h2 h3 hall
    unfold start_discovery_engine
    rw [h1, h2, h3]
    simp only [Bool.false_eq_true, if_false, if_true]
    exact pollLoop_timeout env max_retries 0 (fun j hj => by
      have := hall j hj
      rwa [Nat.zero_add])
  · intro h1 h2 h3 k hk hkh hbefore
    unfold start_discovery_engine
    rw [h1, h2, h3]
    simp only [Bool.false_eq_true, if_false, if_true]
    have hres := pollLoop_started env max_retries 0 k hk
      (by rwa [Nat.zero_add])
      (fun j hj => by
        have := hbefore j hj
        rwa [Nat.zero_add])
    rwa [Nat.zero_add] at hres

/-- Witness for the amended C6: registry healthy at polling iteration 3. -/
theorem c6_witness :
    start_discovery_engine envHealthyAt3 = .started 3 :=
  (c6_amended_bootstrap_contract envHealthyAt3).2.2.2 rfl rfl rfl 3
    (by decide) (by decide) (by decide)

/-- C7: if the registry health check fails on the initial probe and on
every one of the `max_retries` polling probes, supervisor startup aborts
with the fatal discovery-engine error and no worker process is ever
launched (the spawn-attempt list is empty). -/
theorem c7_registry_failure_aborts (c : Creds) (denv : DiscoveryEnv)
    (env : AgentInfo → Option Nat) (read : ConfigRead)
    (hc : validate_credentials c = true)
    (h1 : denv.initialHealthy = false)
    (hfail : ∀ i, i < max_retries → denv.loopHealthy i = false) :
    manager_startup c denv env read =
      (.error "Failed to start discovery engine. Please check the logs for details.",
        []) := by
  unfold manager_startup manager_init
  rw [hc, discovery_fails_of_unhealthy denv h1 hfail]
  simp

/-- Witness for C7: a registry that never becomes healthy. -/
theorem c7_witness :
    manager_startup credsOpenAI envTimeoutCase envAll (.ok [infoA]) =
      (.error "Failed to start discovery engine. Please check the logs for details.",
        []) :=
  c7_registry_failure_aborts credsOpenAI envTimeoutCase envAll (.ok [infoA])
    rfl rfl (by decide)

/-- C8: reconciliation is idempotent: when all launches succeed, a second
`update_agents` pass with the same configuration and no external state
change performs no stop and no start and leaves the fleet state exactly as
after the first pass. -/
theorem c8_reconcile_idempotent (env : AgentInfo → Option Nat) (s : ManagerState)
    (agents : List AgentInfo) (hInv : Inv s)
    (hsucc : ∀ info ∈ agents, (env info).isSome = true) :
    update_agents env (update_agents env s (.ok agents)).state (.ok agents) =
      { state := (update_agents env s (.ok agents)).state,
        stops := [], starts := [] } := by
  apply reconcile_noop
  · intro n hn
    exact (update_agents_mem env s agents n hInv hsucc).mp hn
  · intro info hi
    exact (update_agents_mem env s agents info.name hInv hsucc).mpr
      (List.mem_map_of_mem (·.name) hi)

/-- Witness for C8 at a concrete fleet and configuration. -/
theorem c8_witness :
    update_agents envAll (update_agents envAll initState (.ok [infoA])).state
        (.ok [infoA]) =
      { state := (update_agents envAll initState (.ok [infoA])).state,
        stops := [], starts := [] } :=
  c8_reconcile_idempotent envAll initState [infoA] (by decide) (by decide)

/-- C9: `start_agent` for a worker whose name already has a handle in the
fleet state is an idempotent no-op: no second process is spawned, the
existing handle is returned, and the state is unchanged. -/
theorem c9_start_agent_noop (env : AgentInfo → Option Nat) (s : ManagerState)
    (info : AgentInfo) (hInv : Inv s)
    (h : (alookup s.processes info.name).isSome = true) :
    start_agent env s info =
      { state := s, handle := alookup s.processes info.name, spawned := false } :=
  start_agent_of_mem env s info ((hInv.mem_iff info.name).mpr h)

/-- Witness for C9: restarting the running worker "A" is a no-op even under
an oracle where any real spawn would fail. -/
theorem c9_witness :
    start_agent envNone fleetA infoA =
      { state := fleetA, handle := alookup fleetA.processes infoA.name,
        spawned := false } :=
  c9_start_agent_noop envNone fleetA infoA (by decide) (by decide)

/-- C10: every public fleet operation (`start_agent`, `stop_agent`,
`update_agents`, `start_all_agents`, `stop_all_agents`) preserves the
invariant that `running_agents` matches the key set of `processes` (both
duplicate-free), and a `start_agent` whose process spawn raises leaves the
state — both structures — unchanged. -/
theorem c10_fleet_invariant (env : AgentInfo → Option Nat) (s : ManagerState)
    (info : AgentInfo) (name : String) (read : ConfigRead) (hInv : Inv s) :
    Inv (start_agent env s info).state ∧
    Inv (stop_agent s name).1 ∧
    Inv (update_agents env s read).state ∧
    Inv (start_all_agents env s read).1 ∧
    Inv (stop_all_agents s) ∧
    (env info = none → (start_agent env s info).state = s) :=
  ⟨start_agent_inv env s info hInv,
   stop_agent_inv s name hInv,
   update_agents_inv env s read hInv,
   startAll_inv (load_config read) env s hInv,
   stopAllLoop_inv s.running_agents { s with stop_registration := true } hInv,
   fun he => start_agent_state_of_none env s info he⟩

/-- Witness for C10 at a concrete fleet, including the failing-spawn case. -/
theorem c10_witness :
    Inv (start_agent envNone fleetA infoB).state ∧
    Inv (stop_agent fleetA "A").1 ∧
    Inv (update_agents envNone fleetA (.ok [])).state ∧
    Inv (start_all_agents envNone fleetA (.ok [])).1 ∧
    Inv (stop_all_agents fleetA) ∧
    (start_agent envNone fleetA infoB).state = fleetA :=
  ⟨(c10_fleet_invariant envNone fleetA infoB "A" (.ok []) (by decide)).1,
   (c10_fleet_invariant envNone fleetA infoB "A" (.ok []) (by decide)).2.1,
   (c10_fleet_invariant envNone fleetA infoB "A" (.ok []) (by decide)).2.2.1,
   (c10_fleet_invariant envNone fleetA infoB "A" (.ok []) (by decide)).2.2.2.1,
   (c10_fleet_invariant envNone fleetA infoB "A" (.ok []) (by decide)).2.2.2.2.1,
   (c10_fleet_invariant envNone fleetA infoB "A" (.ok []) (by decide)).2.2.2.2.2 rfl⟩

end AgentsA2A
